import Mathlib

/- Verification development for jtools.py, a Jalali (Solar Hijri) calendar
   command-line tool.  The Python source is embedded shallowly: Python's
   arbitrary-precision integers become `Int`, Python's floor division `//` and
   floor modulus `%` become `Int.fdiv` and `Int.fmod`, Python strings become
   `List Char`, and Python code that can raise becomes `Except String _`. -/

namespace Jtools

/-- Checked division: models the fact that Python `//` raises
`ZeroDivisionError` on a zero divisor and succeeds otherwise. -/
def chkdiv (a b : Int) : Except String Int :=
  if b == 0 then .error "ZeroDivisionError" else .ok (a.fdiv b)

/-- Checked modulus: models Python `%` raising `ZeroDivisionError` on zero. -/
def chkmod (a b : Int) : Except String Int :=
  if b == 0 then .error "ZeroDivisionError" else .ok (a.fmod b)

/-- jtools.py line 71: `_is_greg_leap`. -/
def _is_greg_leap (y : Int) : Bool :=
  y.fmod 4 == 0 && (y.fmod 100 != 0 || y.fmod 400 == 0)

/-- jtools.py line 79: the fixed non-leap Gregorian month-length table `g_md`
used by `g2j`. -/
def g_md_basic : List Int := [31, 28, 31, 30, 31, 30, 31, 31, 30, 31, 30, 31]

/-- jtools.py lines 74-99: `g2j`, Gregorian to Jalali conversion.
The loop `for i in range(gm2): g_day_no += g_md[i]` is the sum of the first
`gm2` entries of `g_md` (empty for `gm2 <= 0`, exactly as Python's `range`);
Python would raise IndexError for `gm2 > 12`, i.e. `gm > 13`, while `take`
clamps — every call site in the source passes a month from a validated
datetime or from a `j2g` result, both in 1..12. -/
def g2j (gy gm gd : Int) : Int × Int × Int :=
  let gy2 := gy - 1600
  let gm2 := gm - 1
  let gd2 := gd - 1
  let gdn0 := 365 * gy2 + (gy2 + 3).fdiv 4 - (gy2 + 99).fdiv 100 + (gy2 + 399).fdiv 400
  let gdn1 := gdn0 + (g_md_basic.take gm2.toNat).sum
  let gdn2 := if 1 < gm2 ∧ _is_greg_leap gy = true then gdn1 + 1 else gdn1
  let g_day_no := gdn2 + gd2
  let j_day_no := g_day_no - 79
  let j_np := j_day_no.fdiv 12053
  let jdn1 := j_day_no.fmod 12053
  let jy0 := 979 + 33 * j_np + 4 * (jdn1.fdiv 1461)
  let jdn2 := jdn1.fmod 1461
  let p : Int × Int :=
    if jdn2 ≥ 366 then (jy0 + (jdn2 - 1).fdiv 365, (jdn2 - 1).fmod 365)
    else (jy0, jdn2)
  if p.2 < 186 then (p.1, p.2.fdiv 31 + 1, p.2.fmod 31 + 1)
  else (p.1, (p.2 - 186).fdiv 30 + 7, (p.2 - 186).fmod 30 + 1)

/-- jtools.py lines 106-107: the loop
`for i in range(jm2): j_day_no += 31 if i < 6 else 30`
(empty for `jm2 <= 0`, exactly as Python's `range`). -/
def jMonthAdd (jm2 : Int) : Int :=
  ((List.range jm2.toNat).map (fun i => if i < 6 then (31 : Int) else 30)).sum

/-- jtools.py line 128: the Gregorian month-length table of `j2g`,
with February depending on the computed `leap` flag. -/
def gMonthsTable (leap : Bool) : List Int :=
  [31, if leap then 29 else 28, 31, 30, 31, 30, 31, 31, 30, 31, 30, 31]

/-- jtools.py lines 129-132: the `while gm < 12 and g_day_no >= g_md[gm]`
walk.  Walking the 12-element list structurally is exactly the guarded loop:
the guard `gm < 12` corresponds to the list being exhausted, so the
`g_md[gm]` access is always in range. -/
def gmdWalk : List Int → Int → Int → Int × Int
  | [], g, gm => (g, gm)
  | x :: xs, g, gm => if g ≥ x then gmdWalk xs (g - x) (gm + 1) else (g, gm)

/-- jtools.py lines 112-120 of `j2g`: the century correction
(`if g_day_no >= 36525: ...` with the `leap` flag outcome). -/
def j2gStep1 (gy0 g1 : Int) : Int × Int × Bool :=
  if g1 ≥ 36525 then
    let ga := g1 - 1
    let gy1 := gy0 + 100 * (ga.fdiv 36524)
    let gb := ga.fmod 36524
    if gb ≥ 365 then (gy1, gb + 1, true) else (gy1, gb, false)
  else (gy0, g1, true)

/-- Checked variant of `j2gStep1`: every Python division/modulus checked. -/
def j2gStep1E (gy0 g1 : Int) : Except String (Int × Int × Bool) :=
  if g1 ≥ 36525 then do
    let ga := g1 - 1
    let q2 ← chkdiv ga 36524
    let gy1 := gy0 + 100 * q2
    let gb ← chkmod ga 36524
    if gb ≥ 365 then pure (gy1, gb + 1, true) else pure (gy1, gb, false)
  else pure (gy0, g1, true)

/-- jtools.py lines 123-127 of `j2g`: the year correction inside a 4-year
block (`if g_day_no >= 366: ...`). -/
def j2gStep2 (gy2b g3 : Int) (leap : Bool) : Int × Int × Bool :=
  if g3 ≥ 366 then (gy2b + (g3 - 1).fdiv 365, (g3 - 1).fmod 365, false)
  else (gy2b, g3, leap)

/-- Checked variant of `j2gStep2`: every Python division/modulus checked. -/
def j2gStep2E (gy2b g3 : Int) (leap : Bool) : Except String (Int × Int × Bool) :=
  if g3 ≥ 366 then do
    let q4 ← chkdiv (g3 - 1) 365
    let g4 ← chkmod (g3 - 1) 365
    pure (gy2b + q4, g4, false)
  else pure (gy2b, g3, leap)

/-- jtools.py lines 101-134: `j2g`, Jalali to Gregorian conversion
(pure arithmetic; `j2gE` is the exception-aware reading of the same code). -/
def j2g (jy jm jd : Int) : Int × Int × Int :=
  let jy2 := jy - 979
  let jm2 := jm - 1
  let jd2 := jd - 1
  let j_day_no := 365 * jy2 + (jy2.fdiv 33) * 8 + ((jy2.fmod 33) + 3).fdiv 4
    + jMonthAdd jm2 + jd2
  let g_day_no := j_day_no + 79
  let gy0 := 1600 + 400 * (g_day_no.fdiv 146097)
  let g1 := g_day_no.fmod 146097
  let s1 := j2gStep1 gy0 g1
  let gy2b := s1.1 + 4 * (s1.2.1.fdiv 1461)
  let g3 := s1.2.1.fmod 1461
  let s2 := j2gStep2 gy2b g3 s1.2.2
  let w := gmdWalk (gMonthsTable s2.2.2) s2.2.1 0
  (s2.1, w.2 + 1, w.1 + 1)

/-- jtools.py lines 101-134 again, keeping track of every Python operation in
`j2g` that could raise: the divisions and moduli raise `ZeroDivisionError`
exactly when the divisor is zero (here every divisor is a nonzero literal);
the `for` loop only adds constants, and the `while` loop's list access is
guarded by `gm < 12`.  No other operation in the function can raise. -/
def j2gE (jy jm jd : Int) : Except String (Int × Int × Int) := do
  let jy2 := jy - 979
  let jm2 := jm - 1
  let jd2 := jd - 1
  let a ← chkdiv jy2 33
  let b ← chkmod jy2 33
  let c ← chkdiv (b + 3) 4
  let j_day_no := 365 * jy2 + a * 8 + c + jMonthAdd jm2 + jd2
  let g_day_no := j_day_no + 79
  let q1 ← chkdiv g_day_no 146097
  let gy0 := 1600 + 400 * q1
  let g1 ← chkmod g_day_no 146097
  let s1 ← j2gStep1E gy0 g1
  let q3 ← chkdiv s1.2.1 1461
  let gy2b := s1.1 + 4 * q3
  let g3 ← chkmod s1.2.1 1461
  let s2 ← j2gStep2E gy2b g3 s1.2.2
  let w := gmdWalk (gMonthsTable s2.2.2) s2.2.1 0
  pure (s2.1, w.2 + 1, w.1 + 1)

/-- jtools.py lines 136-143: `is_jalali_leap` — `try: j2g(jy, 12, 30);
return True; except Exception: return False`. -/
def is_jalali_leap (jy : Int) : Bool :=
  match j2gE jy 12 30 with
  | .ok _ => true
  | .error _ => false

/-- jtools.py lines 145-152: `jalali_days_in_month`; the `raise ValueError`
becomes `.error`. -/
def jalali_days_in_month (jy jm : Int) : Except String Int :=
  if jm < 1 ∨ jm > 12 then .error "month out of range"
  else if jm ≤ 6 then .ok 31
  else if jm ≤ 11 then .ok 30
  else .ok (if is_jalali_leap jy then 30 else 29)

/-- jtools.py lines 154-157: `jalali_yday` (0-based day of year). -/
def jalali_yday (jy jm jd : Int) : Int :=
  if jm ≤ 6 then (jm - 1) * 31 + jd - 1
  else 6 * 31 + (jm - 7) * 30 + jd - 1

/- ======== names, digits, string helpers (jtools.py lines 20-62, 159-160) ======== -/

/-- jtools.py lines 20-23. -/
def JALALI_MONTHS_EN : List String :=
  ["Farvardin", "Ordibehesht", "Khordaad", "Tir", "Mordaad", "Shahrivar",
   "Mehr", "Aabaan", "Aazar", "Dey", "Bahman", "Esfand"]

/-- jtools.py lines 24-27. -/
def JALALI_MONTHS_FA : List String :=
  ["فروردین", "اردیبهشت", "خرداد", "تیر", "مرداد", "شهریور",
   "مهر", "آبان", "آذر", "دی", "بهمن", "اسفند"]

/-- jtools.py line 28. -/
def JALALI_MONTHS_3_EN : List String :=
  ["Far", "Ord", "Kho", "Tir", "Mor", "Sha", "Meh", "Aba", "Aza", "Dey", "Bah", "Esf"]

/-- jtools.py line 29. -/
def JALALI_MONTHS_3_FA : List String :=
  ["فرو", "ارد", "خرد", "تیر", "مرد", "شهر", "مهر", "آبا", "آذر", "دی", "بهم", "اسف"]

/-- jtools.py line 31. -/
def JALALI_DAYS_EN : List String :=
  ["Saturday", "Sunday", "Monday", "Tuesday", "Wednesday", "Thursday", "Friday"]

/-- jtools.py line 32. -/
def JALALI_DAYS_3_EN : List String := ["Sat", "Sun", "Mon", "Tue", "Wed", "Thu", "Fri"]

/-- jtools.py line 33. -/
def JALALI_DAYS_2_EN : List String := ["Sa", "Su", "Mo", "Tu", "We", "Th", "Fr"]

/-- jtools.py line 36. -/
def JALALI_DAYS_FA_LAT : List String :=
  ["Shanbeh", "Yek-Shanbeh", "Do-Shanbeh", "Seh-Shanbeh", "Chahaar-Shanbeh",
   "Panj-Shanbeh", "Jomeh"]

/-- jtools.py line 37. -/
def JALALI_DAYS_3_FA_LAT : List String := ["Sha", "Yek", "Dos", "Ses", "Cha", "Pan", "Jom"]

/-- jtools.py line 39. -/
def JALALI_DAYS_FA : List String :=
  ["شنبه", "یکشنبه", "دوشنبه", "سه‌شنبه", "چهارشنبه", "پنجشنبه", "جمعه"]

/-- jtools.py line 40. -/
def JALALI_DAYS_3_FA : List String := ["شنب", "یکش", "دوش", "سهش", "چها", "پنج", "جمع"]

/-- jtools.py line 41. -/
def JALALI_DAYS_2_FA : List String := ["شن", "یک", "دو", "سه", "چه", "پن", "جم"]

/-- Python list indexing used with an index that is provably in range at every
call site (`jalali_wday` is a mod-7 result, months come from `g2j` output). -/
def strAt (xs : List String) (i : Int) : List Char := (xs.getD i.toNat "").toList

/-- jtools.py lines 43-47: the `FARSI_DIGITS` dict as a character map —
digits map to Persian digits, `'-'` and `' '` map to themselves, and
`dict.get(ch, ch)` returns every other character unchanged. -/
def farsiChar (c : Char) : Char :=
  if c = '0' then '۰' else if c = '1' then '۱' else if c = '2' then '۲'
  else if c = '3' then '۳' else if c = '4' then '۴' else if c = '5' then '۵'
  else if c = '6' then '۶' else if c = '7' then '۷' else if c = '8' then '۸'
  else if c = '9' then '۹' else c

/-- jtools.py lines 159-160: `to_farsi_digits` on an already stringified
value (Python first applies `str(...)`; integer callers go through
`intRepr` below). -/
def to_farsi_digits (s : List Char) : List Char := s.map farsiChar

/-- Decimal digits of a natural number, most significant first
(`str` for nonnegative ints).  Fuel-structured so it computes by `rfl`. -/
def natDigitsGo : Nat → Nat → List Char
  | 0, _ => []
  | f + 1, n =>
    if n < 10 then [Char.ofNat (48 + n)]
    else natDigitsGo f (n / 10) ++ [Char.ofNat (48 + n % 10)]

/-- Digits of `n`, e.g. `natDigits 140 = ['1','4','0']`; `natDigits 0 = ['0']`. -/
def natDigits (n : Nat) : List Char := natDigitsGo (n + 1) n

/-- Python `str` of an int. -/
def intRepr (i : Int) : List Char :=
  if i < 0 then '-' :: natDigits i.natAbs else natDigits i.natAbs

/-- Python format `f"{i:0wd}"`: zero padding to width `w`, sign first. -/
def zeroPad (w : Nat) (i : Int) : List Char :=
  let s := natDigits i.natAbs
  let sign : List Char := if i < 0 then ['-'] else []
  sign ++ List.replicate (w - (s.length + sign.length)) '0' ++ s

/-- Python format `f"{i:wd}"`: space padding on the left to width `w`. -/
def padLeft (w : Nat) (s : List Char) : List Char :=
  List.replicate (w - s.length) ' ' ++ s

/- ======== Python datetime facts needed by the source ======== -/

/-- CPython `datetime._days_before_year`. -/
def pyDaysBeforeYear (y : Int) : Int :=
  (y - 1) * 365 + (y - 1).fdiv 4 - (y - 1).fdiv 100 + (y - 1).fdiv 400

/-- CPython `datetime._days_in_month` (the leap rule is the same formula as
`_is_greg_leap`). -/
def pyDaysInMonth (y m : Int) : Int :=
  (gMonthsTable (_is_greg_leap y)).getD (m - 1).toNat 0

/-- CPython `datetime._days_before_month` (for months 1..12 this equals the
sum of the first `m-1` entries of the leap-adjusted table). -/
def pyDaysBeforeMonth (y m : Int) : Int :=
  ((gMonthsTable (_is_greg_leap y)).take (m - 1).toNat).sum

/-- CPython `date.toordinal`: day 1 is 0001-01-01. -/
def pyToordinal (y m d : Int) : Int :=
  pyDaysBeforeYear y + pyDaysBeforeMonth y m + d

/-- CPython `date.weekday()`: `(toordinal + 6) % 7`, Monday = 0. -/
def pyWeekdayFn (y m d : Int) : Int := (pyToordinal y m d + 6).fmod 7

/-- CPython `datetime._check_date_fields`, the validation run by the
`datetime.date(...)` constructor (jtools.py line 289 calls it on the `j2g`
result): year must be in `MINYEAR..MAXYEAR = 1..9999`, month in 1..12, day in
range for the month. -/
def pyDateCheck (y m d : Int) : Except String Unit :=
  if y < 1 ∨ y > 9999 then .error "year is out of range"
  else if m < 1 ∨ m > 12 then .error "month must be in 1..12"
  else if d < 1 ∨ d > pyDaysInMonth y m then .error "day is out of range for month"
  else .ok ()

/-- jtools.py lines 59-62: `greg_weekday_to_jalali_wday`. -/
def greg_weekday_to_jalali_wday (w : Int) : Int := (w + 2).fmod 7

/-- The time-zone object optionally attached to a datetime: `tzname()` may be
`None`, `utcoffset()` may be `None`; the offset is in seconds. -/
structure TzInfo where
  name : Option String
  utcoff : Option Int

/-- The fields of a Python `datetime` object as used by `jstrftime`. -/
structure PyDateTime where
  year : Int
  month : Int
  day : Int
  hour : Int
  minute : Int
  second : Int
  tzinfo : Option TzInfo

/-- Host-environment fallbacks used when the datetime is naive:
`time.tzname` (a tuple of names) and the current local UTC offset in seconds
(`datetime.now().astimezone().utcoffset()`). -/
structure LocalEnv where
  tznames : List String
  localOff : Int

/-- jtools.py lines 169-170: `datetime_to_jalali`. -/
def datetime_to_jalali (dt : PyDateTime) : Int × Int × Int :=
  g2j dt.year dt.month dt.day

/- ======== the formatter (jtools.py lines 176-268) ======== -/

/-- Python `str.replace(pat, rep)` on `List Char`: scan left to right,
replacing non-overlapping occurrences; fuel-structured (one character is
consumed per fuel unit, so fuel = length of the string suffices).  The guard
`pat ≠ []` matches the fact that every pattern used by the source is a
two-character token (Python's empty-pattern replace behaves differently but
is never exercised). -/
def replaceAllGo (pat rep : List Char) : Nat → List Char → List Char
  | _, [] => []
  | 0, s => s
  | f + 1, a :: rest =>
    if pat ≠ [] ∧ pat = (a :: rest).take pat.length then
      rep ++ replaceAllGo pat rep f (rest.drop (pat.length - 1))
    else
      a :: replaceAllGo pat rep f rest

/-- Python `s.replace(pat, rep)`. -/
def replaceAll (pat rep s : List Char) : List Char := replaceAllGo pat rep s.length s

/-- jtools.py lines 208-258: the token mapping of `jstrftime`, as an ordered
association list.  The order is the Python dict insertion order: the literal
keys of lines 208-229 followed by the assignments of lines 233-258.  Since
every key has length 2, `sorted(mapping.keys(), key=len, reverse=True)`
(line 262) is a stable sort that leaves exactly this order. -/
def tokenPairs (dt : PyDateTime) (lang : String) (env : LocalEnv) :
    List (List Char × List Char) :=
  let j := datetime_to_jalali dt
  let jy := j.1
  let jm := j.2.1
  let jd := j.2.2
  let jalali_wday := greg_weekday_to_jalali_wday (pyWeekdayFn dt.year dt.month dt.day)
  let day_full := if lang = "fa" then strAt JALALI_DAYS_FA jalali_wday
    else strAt JALALI_DAYS_EN jalali_wday
  let day_abbr := if lang = "fa" then strAt JALALI_DAYS_3_FA jalali_wday
    else strAt JALALI_DAYS_3_EN jalali_wday
  let mon_full := if lang = "fa" then strAt JALALI_MONTHS_FA (jm - 1)
    else strAt JALALI_MONTHS_EN (jm - 1)
  let mon_abbr := if lang = "fa" then strAt JALALI_MONTHS_3_FA (jm - 1)
    else strAt JALALI_MONTHS_3_EN (jm - 1)
  let tzname : Option (List Char) := match dt.tzinfo with
    | some tz => tz.name.map String.toList
    | none => match env.tznames with
      | t :: _ => some t.toList
      | [] => some "UTC".toList
  let zName : List Char := match tzname with
    | some s => s
    | none => []
  let off : Int := match dt.tzinfo with
    | some tz => tz.utcoff.getD 0
    | none => env.localOff
  let sign : List Char := if off ≥ 0 then ['+'] else ['-']
  let total_m : Nat := off.natAbs / 60
  let zOff := sign ++ zeroPad 2 ((total_m / 60 : Nat) : Int)
    ++ zeroPad 2 ((total_m % 60 : Nat) : Int)
  let timeHMS := zeroPad 2 dt.hour ++ [':'] ++ zeroPad 2 dt.minute
    ++ [':'] ++ zeroPad 2 dt.second
  let tznameStr : List Char := match tzname with
    | some s => s
    | none => "None".toList
  let tznameOrUTC : List Char := match tzname with
    | some s => if s = [] then "UTC".toList else s
    | none => "UTC".toList
  [("%Y".toList, zeroPad 4 jy),
   ("%m".toList, zeroPad 2 jm),
   ("%d".toList, zeroPad 2 jd),
   ("%H".toList, zeroPad 2 dt.hour),
   ("%M".toList, zeroPad 2 dt.minute),
   ("%S".toList, zeroPad 2 dt.second),
   ("%a".toList, day_abbr),
   ("%A".toList, day_full),
   ("%b".toList, mon_abbr),
   ("%B".toList, mon_full),
   ("%j".toList, zeroPad 3 (jalali_yday jy jm jd + 1)),
   ("%u".toList, intRepr (jalali_wday + 1)),
   ("%w".toList, intRepr jalali_wday),
   ("%D".toList, intRepr jy ++ ['/'] ++ zeroPad 2 jm ++ ['/'] ++ zeroPad 2 jd),
   ("%F".toList, intRepr jy ++ ['-'] ++ zeroPad 2 jm ++ ['-'] ++ zeroPad 2 jd),
   ("%T".toList, timeHMS),
   ("%R".toList, zeroPad 2 dt.hour ++ [':'] ++ zeroPad 2 dt.minute),
   ("%x".toList, zeroPad 2 jd ++ ['/'] ++ zeroPad 2 jm ++ ['/'] ++ intRepr jy),
   ("%X".toList, timeHMS),
   ("%%".toList, ['%']),
   ("%Z".toList, zName),
   ("%z".toList, zOff),
   ("%c".toList, day_abbr ++ [' '] ++ mon_abbr ++ [' '] ++ zeroPad 2 jd ++ [' ']
     ++ timeHMS ++ [' '] ++ tznameStr ++ [' '] ++ intRepr jy),
   ("%g".toList, strAt JALALI_DAYS_3_FA jalali_wday),
   ("%G".toList, strAt JALALI_DAYS_FA jalali_wday),
   ("%v".toList, strAt JALALI_MONTHS_3_FA (jm - 1)),
   ("%V".toList, strAt JALALI_MONTHS_FA (jm - 1)),
   ("%W".toList, to_farsi_digits (intRepr jy) ++ ['/'] ++ to_farsi_digits (zeroPad 2 jm)
     ++ ['/'] ++ to_farsi_digits (zeroPad 2 jd)),
   ("%E".toList, strAt JALALI_DAYS_FA jalali_wday ++ [' '] ++ to_farsi_digits (intRepr jd)
     ++ [' '] ++ strAt JALALI_MONTHS_FA (jm - 1) ++ [' '] ++ to_farsi_digits (intRepr jy)
     ++ "، ساعت ".toList ++ to_farsi_digits (zeroPad 2 dt.hour) ++ [':']
     ++ to_farsi_digits (zeroPad 2 dt.minute) ++ [':']
     ++ to_farsi_digits (zeroPad 2 dt.second) ++ " - ".toList ++ tznameOrUTC),
   ("%O".toList, if dt.hour < 12 then "ق.ظ".toList else "ب.ظ".toList),
   ("%p".toList, if dt.hour < 12 then "AM".toList else "PM".toList),
   ("%P".toList, if dt.hour < 12 then "am".toList else "pm".toList)]

/-- jtools.py lines 176-268: `jstrftime`.  Lines 260-264 run
`out = out.replace(k, mapping[k])` over the keys sorted longest-first (a
no-op sort here since all keys have length 2 — insertion order is kept), and
lines 266-267 apply Farsi digit transliteration to the final string. -/
def jstrftime (fmt : List Char) (dt : PyDateTime) (lang : String)
    (farsi_digits : Bool) (env : LocalEnv) : List Char :=
  let out := (tokenPairs dt lang env).foldl (fun o p => replaceAll p.1 p.2 o) fmt
  if farsi_digits then to_farsi_digits out else out

/-- The second characters of the 32 two-character tokens of `jstrftime`. -/
def tokenSecondChars : List Char :=
  ['Y', 'm', 'd', 'H', 'M', 'S', 'a', 'A', 'b', 'B', 'j', 'u', 'w', 'D', 'F',
   'T', 'R', 'x', 'X', '%', 'Z', 'z', 'c', 'g', 'G', 'v', 'V', 'W', 'E', 'O',
   'p', 'P']

/-- The 32 token keys in processing order (the map of `Prod.fst` over
`tokenPairs`, which does not depend on the datetime). -/
def tokenKeys : List (List Char) :=
  ["%Y".toList, "%m".toList, "%d".toList, "%H".toList, "%M".toList, "%S".toList,
   "%a".toList, "%A".toList, "%b".toList, "%B".toList, "%j".toList, "%u".toList,
   "%w".toList, "%D".toList, "%F".toList, "%T".toList, "%R".toList, "%x".toList,
   "%X".toList, "%%".toList, "%Z".toList, "%z".toList, "%c".toList, "%g".toList,
   "%G".toList, "%v".toList, "%V".toList, "%W".toList, "%E".toList, "%O".toList,
   "%p".toList, "%P".toList]

/-- Test whether the first list is an initial segment of the second. -/
def listLead : List Char → List Char → Bool
  | [], _ => true
  | _ :: _, [] => false
  | a :: as, b :: bs => a == b && listLead as bs

/-- Modelled from the spec (section 4.2 "Algorithm" and design note on token
substitution): a single left-to-right scan that at each position matches the
longest applicable token (the pair list is ordered longest-first), emits its
replacement without ever re-scanning it, and copies any non-token character
unchanged.  This is the spec's described algorithm, defined only to compare
it with the source's sequential whole-string replacement. -/
def specScanGo (pairs : List (List Char × List Char)) : Nat → List Char → List Char
  | _, [] => []
  | 0, s => s
  | f + 1, a :: rest =>
    match pairs.find? (fun p => listLead p.1 (a :: rest)) with
    | some p => p.2 ++ specScanGo pairs f (rest.drop (p.1.length - 1))
    | none => a :: specScanGo pairs f rest

/-- The spec's single-pass substitution over a whole pattern. -/
def specScanSubst (pairs : List (List Char × List Char)) (s : List Char) : List Char :=
  specScanGo pairs s.length s

/-- A concrete aware datetime: Gregorian 2021-03-21 12:00:00 UTC
(Jalali 1400-01-01). -/
def dt0 : PyDateTime :=
  { year := 2021, month := 3, day := 21, hour := 12, minute := 0, second := 0,
    tzinfo := some { name := some "UTC", utcoff := some 0 } }

/-- A concrete host environment: local zone UTC. -/
def env0 : LocalEnv := { tznames := ["UTC"], localOff := 0 }

/- ======== the grid renderer (jtools.py lines 49-56, 274-335) ======== -/

/-- jtools.py line 50: `ANSI["reset"]`. -/
def ANSI_reset : List Char := "\x1b[0m".toList

/-- jtools.py line 54: `ANSI["bg_white"]`. -/
def ANSI_bg_white : List Char := "\x1b[47m".toList

/-- jtools.py line 55: `ANSI["fg_black"]`. -/
def ANSI_fg_black : List Char := "\x1b[30m".toList

/-- jtools.py lines 277-284: `base_shift` from the `start_wday` option
(unknown values fall back to 0 via the final `else`). -/
def base_shift_of (sw : String) : Int :=
  if sw = "sat" then 0 else if sw = "sun" then 6 else if sw = "mon" then 5 else 0

/-- jtools.py lines 288-291: the column of day 1 — convert the month's first
day with `j2g`, build a `datetime.date` from it (which validates and can
raise), take its weekday, remap to the Jalali convention and shift by the
week-start anchor. -/
def month_first_col (jy jm : Int) (sw : String) : Except String Int :=
  match pyDateCheck (j2g jy jm 1).1 (j2g jy jm 1).2.1 (j2g jy jm 1).2.2 with
  | .error e => .error e
  | .ok _ => .ok ((greg_weekday_to_jalali_wday
      (pyWeekdayFn (j2g jy jm 1).1 (j2g jy jm 1).2.1 (j2g jy jm 1).2.2)
      - base_shift_of sw).fmod 7)

/-- jtools.py line 293: `grid = [[None]*7 for _ in range(6)]`. -/
def grid0 : List (List (Option Int)) := List.replicate 6 (List.replicate 7 none)

/-- The assignment `grid[r][c] = day` inside the fill loop.  Python raises
IndexError outside 0..5 / 0..6, where `set`/`getD` are no-ops; the grid
theorems show that every index actually used stays in range. -/
def gridPlace (g : List (List (Option Int))) (r c : Nat) (v : Int) :
    List (List (Option Int)) :=
  g.set r ((g.getD r []).set c (some v))

/-- One iteration of the fill loop (jtools.py lines 295-300): place the day,
advance the column, wrap to the next row after column 6.  The cursor starts
at `(0, first_col)` and only ever increases, so `Nat` coordinates are
faithful to the Python ints. -/
def fillStep (st : List (List (Option Int)) × Nat × Nat) (day : Nat) :
    List (List (Option Int)) × Nat × Nat :=
  let g := gridPlace st.1 st.2.1 st.2.2 (day : Int)
  if st.2.2 + 1 > 6 then (g, st.2.1 + 1, 0) else (g, st.2.1, st.2.2 + 1)

/-- jtools.py lines 293-300: build the 6x7 month grid by iterating the fill
loop over `range(1, jdm + 1)`. -/
def buildGrid (fc jdm : Nat) : List (List (Option Int)) :=
  ((List.range' 1 jdm).foldl fillStep (grid0, 0, fc)).1

/-- The grid as built by `render_month` for a given year/month/week-start
(jtools.py lines 286-300; `first_col` and `jdm` are nonnegative, so `toNat`
is exact). -/
def month_grid (jy jm : Int) (sw : String) :
    Except String (List (List (Option Int))) := do
  let jdm ← jalali_days_in_month jy jm
  let fc ← month_first_col jy jm sw
  pure (buildGrid fc.toNat jdm.toNat)

/-- Grid cell access `grid[r][c]`. -/
def cellAt (g : List (List (Option Int))) (r c : Nat) : Option Int :=
  (g.getD r []).getD c none

/-- Python `str.center(w)`: CPython computes
`left = marg // 2 + (marg & width & 1)` and pads with spaces. -/
def pyCenter (w : Nat) (s : List Char) : List Char :=
  if w ≤ s.length then s
  else
    let marg := w - s.length
    let left := marg / 2 + Nat.land (Nat.land marg w) 1
    List.replicate left ' ' ++ s ++ List.replicate (marg - left) ' '

/-- Python `sep.join(parts)` for a one-character separator. -/
def joinSep (c : Char) : List (List Char) → List Char
  | [] => []
  | [x] => x
  | x :: y :: rest => x ++ c :: joinSep c (y :: rest)

/-- Split on a separator character (inverse of `joinSep` on
separator-free parts); used to state "the output has exactly 8 lines". -/
def splitSep (c : Char) : List Char → List (List Char)
  | [] => [[]]
  | ch :: rest =>
    let r := splitSep c rest
    if ch = c then [] :: r
    else match r with
      | [] => [[ch]]
      | h :: t => (ch :: h) :: t

/-- jtools.py lines 322-333: the text of one grid cell — two blanks for an
empty cell, otherwise the 2-wide right-aligned day number, optionally in
Farsi digits, wrapped in inverse-video ANSI styling when it is the
highlighted day and color is on.  Python's `if highlight and d == highlight
and color` treats `None` and `0` as falsy. -/
def cellText (highlight : Option Int) (color : Bool) (farsi_digits : Bool)
    (lang : String) (cell : Option Int) : List Char :=
  match cell with
  | none => "  ".toList
  | some d =>
    let text := padLeft 2 (intRepr d)
    let text := if farsi_digits ∧ lang = "fa" then to_farsi_digits text else text
    match highlight with
    | some h =>
      if h ≠ 0 ∧ d = h ∧ color = true then
        ANSI_fg_black ++ ANSI_bg_white ++ text ++ ANSI_reset
      else text
    | none => text

/-- jtools.py lines 274-335: `render_month`.  The output is the title line,
the weekday header line and the six grid rows, joined with newlines
(lines 317-335). -/
def render_month (jy jm : Int) (highlight : Option Int) (show_julian : Bool)
    (lang : String) (farsi_digits : Bool) (color : Bool) (start_wday : String) :
    Except String (List Char) := do
  let jdm ← jalali_days_in_month jy jm
  let fc ← month_first_col jy jm start_wday
  let grid := buildGrid fc.toNat jdm.toNat
  let mname := if lang = "fa" then strAt JALALI_MONTHS_FA (jm - 1)
    else strAt JALALI_MONTHS_EN (jm - 1)
  let days_hdr := if lang = "fa" then
      (if show_julian then JALALI_DAYS_3_FA else JALALI_DAYS_2_FA)
    else if lang = "fa-lat" then JALALI_DAYS_3_FA_LAT
    else (if show_julian then JALALI_DAYS_3_EN else JALALI_DAYS_2_EN)
  let title := if farsi_digits ∧ lang = "fa"
    then mname ++ [' '] ++ to_farsi_digits (intRepr jy)
    else mname ++ [' '] ++ intRepr jy
  let hdr := joinSep ' ' (days_hdr.map (fun d => pyCenter 2 d.toList))
  let rows := grid.map (fun row =>
    joinSep ' ' (row.map (cellText highlight color farsi_digits lang)))
  pure (joinSep '\n' (pyCenter 20 title :: hdr :: rows))

/- ===================== theorems ===================== -/

theorem j2gStep1E_ok (gy0 g1 : Int) : j2gStep1E gy0 g1 = .ok (j2gStep1 gy0 g1) := by
  unfold j2gStep1E j2gStep1
  split_ifs with h
  · simp only [chkdiv, chkmod, Int.reduceBEq, Bool.false_eq_true, reduceIte, bind,
      Except.bind, pure, Except.pure]
    split_ifs <;> rfl
  · rfl

theorem j2gStep2E_ok (gy2b g3 : Int) (leap : Bool) :
    j2gStep2E gy2b g3 leap = .ok (j2gStep2 gy2b g3 leap) := by
  unfold j2gStep2E j2gStep2
  split_ifs with h
  all_goals simp only [chkdiv, chkmod, Int.reduceBEq, Bool.false_eq_true, reduceIte, bind,
    Except.bind, pure, Except.pure]

theorem ok_bind {a : Type} {b : Type} (x : a) (f : a → Except String b) :
    (Except.ok x : Except String a) >>= f = f x := rfl

/-- Helper: `j2g` is total — its checked reading always succeeds and returns
exactly the pure arithmetic value. -/
theorem j2gE_eq_ok (jy jm jd : Int) : j2gE jy jm jd = .ok (j2g jy jm jd) := by
  unfold j2gE j2g
  simp only [chkdiv, chkmod, Int.reduceBEq, Bool.false_eq_true, reduceIte,
    j2gStep1E_ok, j2gStep2E_ok, ok_bind]
  rfl

/-- Helper: the `except` branch of `is_jalali_leap` is unreachable, so the
function returns `True` for every year. -/
theorem is_jalali_leap_true (jy : Int) : is_jalali_leap jy = true := by
  unfold is_jalali_leap
  rw [j2gE_eq_ok jy 12 30]

/-- Claim C9: `j2g` is a total pure arithmetic function — for every integer
inputs `(jy, jm, jd)`, including day and month values outside the valid
calendar ranges, it returns an integer triple without raising any exception
(its checked reading `j2gE` always returns `.ok` of the pure value);
consequently the exception branch in `is_jalali_leap` is unreachable and
`is_jalali_leap` returns `True` for every year. -/
theorem claim_C9 : ∀ jy jm jd : Int,
    j2gE jy jm jd = .ok (j2g jy jm jd) ∧ is_jalali_leap jy = true :=
  fun jy jm jd => ⟨j2gE_eq_ok jy jm jd, is_jalali_leap_true jy⟩

/-- Claim C1 is false on the code (code bug): `(1404, 12, 30)` is a "valid"
Jalali date by the code's own `jalali_days_in_month` (which returns 30 for
Esfand 1404 because `is_jalali_leap` can never return `False`), `1404` lies in
the claimed year range 1300..1450, yet the round trip is not lossless:
`j2g(1404, 12, 30) = (2026, 3, 21)` and `g2j(2026, 3, 21) = (1405, 1, 1)`,
not `(1404, 12, 30)`. -/
theorem claim_C1 :
    (1300 ≤ (1404 : Int) ∧ (1404 : Int) ≤ 1450)
    ∧ jalali_days_in_month 1404 12 = .ok 30
    ∧ j2g 1404 12 30 = (2026, 3, 21)
    ∧ g2j 2026 3 21 = (1405, 1, 1) :=
  ⟨by decide, rfl, rfl, rfl⟩

/-- Claim C2 is false on the code (code bug): the first three fixed points
hold — `g2j(1979,2,11) = (1357,11,22)`, `j2g(1400,1,1) = (2021,3,21)`,
`jalali_days_in_month(1403,12) = 30` — but `jalali_days_in_month(1404,12)`
returns 30, not the claimed 29, because `is_jalali_leap` never returns
`False` (`j2g` cannot raise). -/
theorem claim_C2 :
    g2j 1979 2 11 = (1357, 11, 22)
    ∧ j2g 1400 1 1 = (2021, 3, 21)
    ∧ jalali_days_in_month 1403 12 = .ok 30
    ∧ jalali_days_in_month 1404 12 = .ok 30 :=
  ⟨rfl, rfl, rfl, rfl⟩

/-- Claim C3 is false on the code (code bug): `is_jalali_leap(1404)` returns
`True` (the conversion probe `j2g(1404, 12, 30)` cannot fail), yet Esfand 30
of 1404 has no valid corresponding Gregorian date under the inverse
conversion — `j2g` maps it to `(2026, 3, 21)`, which converts back to
`(1405, 1, 1)`.  Leap-ness and convertibility do disagree. -/
theorem claim_C3 :
    is_jalali_leap 1404 = true
    ∧ j2gE 1404 12 30 = .ok (2026, 3, 21)
    ∧ g2j 2026 3 21 = (1405, 1, 1) :=
  ⟨rfl, rfl, rfl⟩

/-- Claim C4 is false on the code (code bug): for the invalid input
`(1400, 13, 1)` (month outside 1..12) the conversion `j2g` does not fail with
any error — its checked reading succeeds and returns the Gregorian triple
`(2022, 3, 22)` (the date is silently normalized arithmetically, never
rejected). -/
theorem claim_C4 :
    j2gE 1400 13 1 = .ok (2022, 3, 22)
    ∧ j2g 1400 13 1 = (2022, 3, 22) :=
  ⟨rfl, rfl⟩

/-- Helper: inversion of `jalali_days_in_month` on success. -/
theorem dim_cases (jy jm L : Int) (h : jalali_days_in_month jy jm = .ok L) :
    1 ≤ jm ∧ jm ≤ 12 ∧
      ((jm ≤ 6 ∧ L = 31) ∨ (7 ≤ jm ∧ jm ≤ 11 ∧ L = 30) ∨ (jm = 12 ∧ L = 30)) := by
  unfold jalali_days_in_month at h
  rw [is_jalali_leap_true jy] at h
  simp only [reduceIte] at h
  split_ifs at h with h1 h2 h3
  all_goals simp only [Except.ok.injEq, reduceIte, reduceCtorEq] at h
  all_goals omega

/-- Claim C6: `jalali_days_in_month(y, m)` returns 31 for every month `m` in
1..6, returns 30 for every month in 7..11, returns 30 for month 12 when
`is_jalali_leap(y)` and 29 otherwise, and raises a range error exactly when
`m` is outside 1..12. -/
theorem claim_C6 : ∀ jy jm : Int,
    (1 ≤ jm ∧ jm ≤ 6 → jalali_days_in_month jy jm = .ok 31)
    ∧ (7 ≤ jm ∧ jm ≤ 11 → jalali_days_in_month jy jm = .ok 30)
    ∧ (jm = 12 → jalali_days_in_month jy jm =
        .ok (if is_jalali_leap jy then 30 else 29))
    ∧ (jalali_days_in_month jy jm = .error "month out of range" ↔
        (jm < 1 ∨ 12 < jm)) := by
  intro jy jm
  unfold jalali_days_in_month
  refine ⟨fun h => ?_, fun h => ?_, fun h => ?_, ?_⟩
  · rw [if_neg (by omega), if_pos (by omega)]
  · rw [if_neg (by omega), if_neg (by omega), if_pos (by omega)]
  · rw [if_neg (by omega), if_neg (by omega), if_neg (by omega)]
  · constructor
    · intro h
      split_ifs at h with h1
      exact h1
    · intro h
      rw [if_pos h]

/-- Witness for C6 at concrete months 3, 9, 12 and 0. -/
theorem claim_C6_witness :
    jalali_days_in_month 1400 3 = .ok 31
    ∧ jalali_days_in_month 1400 9 = .ok 30
    ∧ jalali_days_in_month 1400 12 = .ok (if is_jalali_leap 1400 then 30 else 29)
    ∧ jalali_days_in_month 1400 0 = .error "month out of range" :=
  ⟨(claim_C6 1400 3).1 (by decide), (claim_C6 1400 9).2.1 (by decide),
   (claim_C6 1400 12).2.2.1 rfl, ((claim_C6 1400 0).2.2.2).mpr (by decide)⟩

/-- Claim C7: for every valid Jalali date `(y, m, d)` (valid by the code's
own `jalali_days_in_month`), the 0-based day of year `jalali_yday` equals
`31*(m-1) + d - 1` for `m <= 6` and `186 + 30*(m-7) + d - 1` for `m >= 7`;
it is nonnegative, at most 364 for non-leap years and at most 365 for leap
years; and `jalali_yday(y, 1, 1) = 0` for every year. -/
theorem claim_C7 : ∀ jy jm jd L : Int,
    jalali_days_in_month jy jm = .ok L → 1 ≤ jd → jd ≤ L →
    ((jm ≤ 6 → jalali_yday jy jm jd = 31 * (jm - 1) + jd - 1)
     ∧ (7 ≤ jm → jalali_yday jy jm jd = 186 + 30 * (jm - 7) + jd - 1)
     ∧ 0 ≤ jalali_yday jy jm jd
     ∧ (is_jalali_leap jy = false → jalali_yday jy jm jd ≤ 364)
     ∧ (is_jalali_leap jy = true → jalali_yday jy jm jd ≤ 365))
    ∧ jalali_yday jy 1 1 = 0 := by
  intro jy jm jd L h h1 h2
  have hc := dim_cases jy jm L h
  have hleap := is_jalali_leap_true jy
  constructor
  · unfold jalali_yday
    split_ifs with h6
    · exact ⟨fun _ => by omega, fun h7 => by omega, by omega,
        fun hf => by simp [hleap] at hf, fun _ => by omega⟩
    · exact ⟨fun h6' => by omega, fun _ => by omega, by omega,
        fun hf => by simp [hleap] at hf, fun _ => by omega⟩
  · norm_num [jalali_yday]

/-- Witness for C7 at the last day of a year, `(1400, 12, 30)`. -/
theorem claim_C7_witness :
    jalali_yday 1400 12 30 ≤ 365 ∧ jalali_yday 1400 1 1 = 0 := by
  have h := claim_C7 1400 12 30 30 rfl (by decide) (by decide)
  exact ⟨h.1.2.2.2.2 (by rfl), h.2⟩

/-- Helper: the key column of `tokenPairs` is the constant list `tokenKeys`. -/
theorem tokenPairs_fst (dt : PyDateTime) (lang : String) (env : LocalEnv) :
    (tokenPairs dt lang env).map Prod.fst = tokenKeys := rfl

/-- Helper: every key of `tokenPairs` is `'%'` followed by one character from
`tokenSecondChars`. -/
theorem tokenPairs_key_shape (dt : PyDateTime) (lang : String) (env : LocalEnv) :
    ∀ p ∈ tokenPairs dt lang env, ∃ k, p.1 = ['%', k] ∧ k ∈ tokenSecondChars := by
  intro p hp
  have hmem : p.1 ∈ tokenKeys := by
    rw [← tokenPairs_fst dt lang env]
    exact List.mem_map_of_mem Prod.fst hp
  have hall : ∀ x ∈ tokenKeys,
      x.length = 2 ∧ x.headD ' ' = '%' ∧ x.getD 1 ' ' ∈ tokenSecondChars := by decide
  obtain ⟨hlen, hhead, hsec⟩ := hall p.1 hmem
  obtain ⟨a, b, hab⟩ := List.length_eq_two.mp hlen
  rw [hab] at hhead hsec ⊢
  simp only [List.headD_cons] at hhead
  simp only [List.getD, List.getElem?_cons_succ, List.getElem?_cons_zero,
    Option.getD_some] at hsec
  exact ⟨b, by rw [hhead], hsec⟩

/-- Helper: a replacement with a pattern starting in `'%'` leaves any string
without `'%'` unchanged (for every fuel value). -/
theorem replaceAllGo_pct_miss (k rep : List Char) :
    ∀ (f : Nat) (s : List Char), '%' ∉ s → replaceAllGo ('%' :: k) rep f s = s := by
  intro f
  induction f with
  | zero => intro s _; cases s <;> rfl
  | succ f ih =>
    intro s hs
    cases s with
    | nil => rfl
    | cons a rest =>
      have ha : '%' ≠ a := fun h => hs (h ▸ List.mem_cons_self a rest)
      have hrest : '%' ∉ rest := fun hm => hs (List.mem_cons_of_mem a hm)
      simp only [replaceAllGo]
      rw [if_neg, ih rest hrest]
      rintro ⟨-, heq⟩
      rw [List.length_cons, List.take_succ_cons] at heq
      exact ha (List.head_eq_of_cons_eq heq)

/-- Helper: a two-character pattern whose second character differs from `c`
does not touch the two-character string `['%', c]`. -/
theorem replaceAll_two (k c : Char) (rep : List Char) (h : k ≠ c) :
    replaceAll ['%', k] rep ['%', c] = ['%', c] := by
  simp [replaceAll, replaceAllGo, h]

/-- Helper: a two-character pattern cannot occur in a one-character string. -/
theorem replaceAll_single (pat rep : List Char) (x : Char) (h : pat.length = 2) :
    replaceAll pat rep [x] = [x] := by
  match pat, h with
  | [a, b], _ => simp [replaceAll, replaceAllGo]

/-- Helper: folding the replacements over a pattern without `'%'` is the
identity, as long as every key starts with `'%'`. -/
theorem substFold_no_pct (pairs : List (List Char × List Char)) (s : List Char)
    (hk : ∀ p ∈ pairs, ∃ k, p.1 = ['%', k]) (hs : '%' ∉ s) :
    pairs.foldl (fun o p => replaceAll p.1 p.2 o) s = s := by
  induction pairs with
  | nil => rfl
  | cons p ps ih =>
    obtain ⟨k, hp1⟩ := hk p (List.mem_cons_self p ps)
    rw [List.foldl_cons]
    have : replaceAll p.1 p.2 s = s := by
      rw [hp1]
      exact replaceAllGo_pct_miss [k] p.2 s.length s hs
    rw [this]
    exact ih (fun q hq => hk q (List.mem_cons_of_mem p hq))

/-- Helper: folding the replacements over `['%', c]` is the identity when no
key's second character is `c`. -/
theorem substFold_pct_other (pairs : List (List Char × List Char)) (c : Char)
    (hk : ∀ p ∈ pairs, ∃ k, p.1 = ['%', k] ∧ k ≠ c) :
    pairs.foldl (fun o p => replaceAll p.1 p.2 o) ['%', c] = ['%', c] := by
  induction pairs with
  | nil => rfl
  | cons p ps ih =>
    obtain ⟨k, hp1, hkc⟩ := hk p (List.mem_cons_self p ps)
    rw [List.foldl_cons]
    have : replaceAll p.1 p.2 ['%', c] = ['%', c] := by
      rw [hp1]; exact replaceAll_two k c p.2 hkc
    rw [this]
    exact ih (fun q hq => hk q (List.mem_cons_of_mem p hq))

/-- Helper: folding the replacements over a one-character string is the
identity when every key has two characters. -/
theorem substFold_single (pairs : List (List Char × List Char)) (x : Char)
    (hk : ∀ p ∈ pairs, p.1.length = 2) :
    pairs.foldl (fun o p => replaceAll p.1 p.2 o) [x] = [x] := by
  induction pairs with
  | nil => rfl
  | cons p ps ih =>
    rw [List.foldl_cons, replaceAll_single p.1 p.2 x (hk p (List.mem_cons_self p ps))]
    exact ih (fun q hq => hk q (List.mem_cons_of_mem p hq))

/-- Helper: the pair whose key is `"%%"` carries the replacement `"%"`
(it is the element at index 19 of the mapping, and the keys are distinct). -/
theorem tokenPairs_dd_val (dt : PyDateTime) (lang : String) (env : LocalEnv) :
    ∀ p ∈ tokenPairs dt lang env, p.1 = ['%', '%'] → p.2 = ['%'] := by
  intro p hp hdd
  obtain ⟨i, hi, rfl⟩ := List.mem_iff_getElem.mp hp
  have hi32 : i < tokenKeys.length := by
    rw [show tokenKeys.length = 32 from rfl]
    rw [show (tokenPairs dt lang env).length = 32 from rfl] at hi
    exact hi
  have hik : tokenKeys.get ⟨i, hi32⟩ = (tokenPairs dt lang env)[i].1 :=
    (List.getElem_of_eq (tokenPairs_fst dt lang env).symm hi32).trans
      (List.getElem_map Prod.fst)
  have hi19 : ∀ j : Fin tokenKeys.length, tokenKeys.get j = ['%', '%'] → (j : Nat) = 19 := by
    decide
  have : i = 19 := hi19 ⟨i, hi32⟩ (hik.trans hdd)
  subst this
  rfl

/-- Helper: folding the replacements over `"%%"` yields `"%"` when the keys
are the real token keys: the `"%%" -> "%"` replacement fires (no earlier
two-character key matches `"%%"`), and the later keys cannot match the
remaining single character. -/
theorem substFold_dd (pairs : List (List Char × List Char))
    (hk : ∀ p ∈ pairs, ∃ k, p.1 = ['%', k])
    (hv : ∀ p ∈ pairs, p.1 = ['%', '%'] → p.2 = ['%'])
    (hdd : ∃ p ∈ pairs, p.1 = ['%', '%']) :
    pairs.foldl (fun o p => replaceAll p.1 p.2 o) ['%', '%'] = ['%'] := by
  induction pairs with
  | nil => obtain ⟨p, hp, -⟩ := hdd; exact absurd hp (List.not_mem_nil p)
  | cons p ps ih =>
    obtain ⟨k, hp1⟩ := hk p (List.mem_cons_self p ps)
    rw [List.foldl_cons]
    by_cases hkp : k = '%'
    · have h2 : p.2 = ['%'] := hv p (List.mem_cons_self p ps) (by rw [hp1, hkp])
      have hstep : replaceAll p.1 p.2 ['%', '%'] = ['%'] := by
        rw [hp1, hkp, h2]; rfl
      rw [hstep]
      exact substFold_single ps '%' (fun q hq => by
        obtain ⟨k', hq1⟩ := hk q (List.mem_cons_of_mem p hq)
        rw [hq1]; rfl)
    · have hstep : replaceAll p.1 p.2 ['%', '%'] = ['%', '%'] := by
        rw [hp1]; exact replaceAll_two k '%' p.2 hkp
      rw [hstep]
      refine ih (fun q hq => hk q (List.mem_cons_of_mem p hq))
        (fun q hq => hv q (List.mem_cons_of_mem p hq)) ?_
      obtain ⟨q, hq, hq1⟩ := hdd
      rcases List.mem_cons.mp hq with rfl | hq'
      · rw [hp1] at hq1
        injection hq1 with h1 h2
        injection h2 with h3 h4
        exact absurd h3 hkp
      · exact ⟨q, hq', hq1⟩

/-- Claim C5 is false as stated (corrected): the source's substitution is a
sequence of whole-string `str.replace` passes, not a single non-rescanning
scan.  At the concrete pattern `"%%Z"` (datetime `dt0`, language `"en"`,
environment `env0`) the code first rewrites `"%%"` to `"%"` and the later
`"%Z"` pass then matches the `'%'` produced by that earlier replacement
together with the literal `Z`, printing the zone name `"UTC"`; the spec's
single-pass longest-first scan (`specScanSubst`) yields `"%Z"` instead. -/
theorem claim_C5_counterexample :
    jstrftime "%%Z".toList dt0 "en" false env0 = "UTC".toList
    ∧ specScanSubst (tokenPairs dt0 "en" env0) "%%Z".toList = "%Z".toList
    ∧ jstrftime "%%Z".toList dt0 "en" false env0
      ≠ specScanSubst (tokenPairs dt0 "en" env0) "%%Z".toList :=
  ⟨rfl, rfl, by decide⟩

/-- Claim C5, amended: token substitution in `jstrftime` applies whole-string
replacements sequentially, longest token first (all tokens have length two,
so the stable sort keeps mapping insertion order); text produced by an
earlier replacement CAN be re-scanned and matched by a later token (e.g.
`"%%Z"` yields the zone name, see the counterexample).  The pass-through
properties hold: a pattern without `'%'` passes through unchanged, a literal
`'%'` followed by a character that completes no token passes through
unchanged, and `"%%"` alone yields `"%"`. -/
theorem claim_C5 : ∀ (dt : PyDateTime) (lang : String) (env : LocalEnv)
    (fmt : List Char) (c : Char),
    ('%' ∉ fmt → jstrftime fmt dt lang false env = fmt)
    ∧ (c ∉ tokenSecondChars → jstrftime ['%', c] dt lang false env = ['%', c])
    ∧ jstrftime ['%', '%'] dt lang false env = ['%'] := by
  intro dt lang env fmt c
  refine ⟨fun hf => ?_, fun hc => ?_, ?_⟩
  · unfold jstrftime
    simp only [Bool.false_eq_true, reduceIte]
    exact substFold_no_pct _ fmt
      (fun p hp => by
        obtain ⟨k, h1, -⟩ := tokenPairs_key_shape dt lang env p hp
        exact ⟨k, h1⟩) hf
  · unfold jstrftime
    simp only [Bool.false_eq_true, reduceIte]
    exact substFold_pct_other _ c
      (fun p hp => by
        obtain ⟨k, h1, h2⟩ := tokenPairs_key_shape dt lang env p hp
        exact ⟨k, h1, fun hkc => hc (hkc ▸ h2)⟩)
  · unfold jstrftime
    simp only [Bool.false_eq_true, reduceIte]
    refine substFold_dd _
      (fun p hp => by
        obtain ⟨k, h1, -⟩ := tokenPairs_key_shape dt lang env p hp
        exact ⟨k, h1⟩)
      (tokenPairs_dd_val dt lang env) ?_
    have : (['%', '%'] : List Char) ∈ tokenKeys := by decide
    rw [← tokenPairs_fst dt lang env] at this
    obtain ⟨p, hp, hfst⟩ := List.mem_map.mp this
    exact ⟨p, hp, hfst⟩

/-- Witness for C5 at a concrete datetime: a percent-free pattern, `"%q"`
(no `q` token), and `"%%"`. -/
theorem claim_C5_witness :
    jstrftime "abc".toList dt0 "en" false env0 = "abc".toList
    ∧ jstrftime "%q".toList dt0 "en" false env0 = "%q".toList
    ∧ jstrftime "%%".toList dt0 "en" false env0 = ['%'] :=
  ⟨(claim_C5 dt0 "en" env0 "abc".toList 'q').1 (by decide),
   (claim_C5 dt0 "en" env0 "%q".toList 'q').2.1 (by decide),
   (claim_C5 dt0 "en" env0 "%%".toList 'q').2.2⟩

/-- Helper: `getD` after `set` at the same (in-range) index. -/
theorem getD_set_self {α : Type} (l : List α) (i : Nat) (a d : α) (h : i < l.length) :
    (l.set i a).getD i d = a := by
  simp [List.getD_eq_getElem?_getD, List.getElem?_set, h]

/-- Helper: `getD` after `set` at a different index. -/
theorem getD_set_ne {α : Type} (l : List α) (i j : Nat) (a d : α) (h : i ≠ j) :
    (l.set i a).getD j d = l.getD j d := by
  simp [List.getD_eq_getElem?_getD, List.getElem?_set, h]

/-- Helper: the empty grid has no filled cell. -/
theorem cellAt_grid0 (i j : Nat) (hi : i < 6) (hj : j < 7) : cellAt grid0 i j = none := by
  interval_cases i <;> interval_cases j <;> rfl

/-- Helper: rows of the empty grid have width 7. -/
theorem grid0_row_length (i : Nat) (hi : i < 6) : (grid0.getD i []).length = 7 := by
  unfold grid0
  rw [List.getD_eq_getElem?_getD, List.getElem?_replicate, if_pos hi]
  rfl

/-- Helper: placing a day keeps the row count. -/
theorem gridPlace_length (g : List (List (Option Int))) (r c : Nat) (v : Int) :
    (gridPlace g r c v).length = g.length := by
  unfold gridPlace
  exact List.length_set g r _

/-- Helper: placing a day at an in-range cell keeps every row's width. -/
theorem gridPlace_row_length (g : List (List (Option Int))) (hlen : g.length = 6)
    (hrow : ∀ i, i < 6 → (g.getD i []).length = 7) (r c : Nat) (hr : r < 6)
    (v : Int) (i : Nat) (hi : i < 6) :
    ((gridPlace g r c v).getD i []).length = 7 := by
  unfold gridPlace
  by_cases hir : r = i
  · subst hir
    rw [getD_set_self g r _ [] (by omega), List.length_set]
    exact hrow r hr
  · rw [getD_set_ne g r i _ [] hir]
    exact hrow i hi

/-- Helper: the cell update law of `gridPlace` on a well-formed grid. -/
theorem cellAt_gridPlace (g : List (List (Option Int))) (hlen : g.length = 6)
    (hrow : ∀ i, i < 6 → (g.getD i []).length = 7) (r c : Nat) (hr : r < 6)
    (hc : c < 7) (v : Int) (i j : Nat) (hi : i < 6) (hj : j < 7) :
    cellAt (gridPlace g r c v) i j = if i = r ∧ j = c then some v else cellAt g i j := by
  unfold cellAt gridPlace
  by_cases hir : r = i
  · subst hir
    rw [getD_set_self g r _ [] (by omega)]
    by_cases hjc : c = j
    · subst hjc
      rw [getD_set_self _ c _ none (by rw [hrow r hr]; omega)]
      rw [if_pos ⟨rfl, rfl⟩]
    · rw [getD_set_ne _ c j _ none hjc,
        if_neg (by rintro ⟨-, h⟩; exact hjc h.symm)]
  · rw [getD_set_ne g r i _ [] hir,
      if_neg (by rintro ⟨h, -⟩; exact hir h.symm)]

/-- Helper: the grid-fill loop invariant.  After the days `1..n` are placed
starting at column `F`, the cursor sits at row-major position `F + n`, the
grid is still 6x7, and cell `(i, j)` holds day `7*i + j - F + 1` exactly when
its row-major position `7*i + j` lies in `[F, F + n)`. -/
theorem fill_loop_spec (F : Nat) (hF : F ≤ 6) :
    ∀ n, F + n ≤ 42 →
    ∃ g, (List.range' 1 n).foldl fillStep (grid0, 0, F) = (g, (F + n) / 7, (F + n) % 7)
      ∧ g.length = 6
      ∧ (∀ i, i < 6 → (g.getD i []).length = 7)
      ∧ (∀ i j, i < 6 → j < 7 →
          cellAt g i j = if F ≤ 7 * i + j ∧ 7 * i + j < F + n
            then some (((7 * i + j - F : Nat) + 1 : Nat) : Int) else none) := by
  intro n
  induction n with
  | zero =>
    intro hn
    refine ⟨grid0, ?_, rfl, fun i hi => grid0_row_length i hi, fun i j hi hj => ?_⟩
    · simp only [List.range', List.foldl_nil]
      rw [Nat.add_zero, Nat.div_eq_of_lt (by omega), Nat.mod_eq_of_lt (by omega)]
    · rw [cellAt_grid0 i j hi hj, if_neg (by omega)]
  | succ n ih =>
    intro hn
    obtain ⟨g, hfold, hlen, hrow, hcell⟩ := ih (by omega)
    have hrange : List.range' 1 (n + 1) = List.range' 1 n ++ [1 + n] := by
      have := @List.range'_concat 1 1 n
      simpa using this
    have hr6 : (F + n) / 7 < 6 := by omega
    have hc7 : (F + n) % 7 < 7 := by omega
    refine ⟨gridPlace g ((F + n) / 7) ((F + n) % 7) ((1 + n : Nat) : Int), ?_, ?_, ?_, ?_⟩
    · rw [hrange, List.foldl_append, hfold, List.foldl_cons, List.foldl_nil]
      unfold fillStep
      simp only
      split_ifs with hwrap
      · have h1 : (F + (n + 1)) / 7 = (F + n) / 7 + 1 := by omega
        have h2 : (F + (n + 1)) % 7 = 0 := by omega
        rw [h1, h2]
      · have h1 : (F + (n + 1)) / 7 = (F + n) / 7 := by omega
        have h2 : (F + (n + 1)) % 7 = (F + n) % 7 + 1 := by omega
        rw [h1, h2]
    · rw [gridPlace_length, hlen]
    · exact fun i hi => gridPlace_row_length g hlen hrow _ _ hr6 _ i hi
    · intro i j hi hj
      rw [cellAt_gridPlace g hlen hrow _ _ hr6 hc7 _ i j hi hj]
      by_cases hij : i = (F + n) / 7 ∧ j = (F + n) % 7
      · obtain ⟨hi', hj'⟩ := hij
        have hp : 7 * i + j = F + n := by omega
        rw [if_pos ⟨hi', hj'⟩, if_pos (by omega)]
        congr 1
        omega
      · have hp : 7 * i + j ≠ F + n := by
          intro h
          exact hij ⟨by omega, by omega⟩
        rw [if_neg hij, hcell i j hi hj]
        by_cases hin : F ≤ 7 * i + j ∧ 7 * i + j < F + n
        · rw [if_pos hin, if_pos (by omega)]
        · rw [if_neg hin, if_neg (by omega)]

/-- Helper: bounds of the first-day column computed by `render_month`. -/
theorem month_first_col_bounds (jy jm : Int) (sw : String) (fc : Int)
    (h : month_first_col jy jm sw = .ok fc) : 0 ≤ fc ∧ fc < 7 := by
  unfold month_first_col at h
  split at h
  · exact absurd h (by simp)
  · simp only [Except.ok.injEq] at h
    subst h
    rw [Int.fmod_eq_emod _ (by norm_num)]
    exact ⟨Int.emod_nonneg _ (by norm_num), Int.emod_lt_of_pos _ (by norm_num)⟩

/-- Claim C8, amended: for every Jalali year and month in 1..12 and every
week-start option **such that the Gregorian counterpart of the month's first
day is constructible as a Python `datetime.date` (its year is within
1..9999)**, the grid built by `render_month` is 6 rows by 7 columns, the
first-day column `fc` satisfies `0 <= fc < 7`, `fc + daysInMonth <= 42`
(no day falls outside the grid), and cell `(i, j)` holds day
`7*i + j - fc + 1` exactly when `fc <= 7*i + j < fc + daysInMonth` — so the
filled cells are exactly the distinct integers `1..daysInMonth`, placed
left-to-right, top-to-bottom.  (The original claim quantified over *every*
Jalali year; see the counterexample for why the constructibility condition
is needed.) -/
theorem claim_C8 : ∀ (jy jm : Int) (sw : String) (jdm fc : Int)
    (g : List (List (Option Int))),
    jalali_days_in_month jy jm = .ok jdm →
    month_first_col jy jm sw = .ok fc →
    month_grid jy jm sw = .ok g →
    (0 ≤ fc ∧ fc < 7)
    ∧ (29 ≤ jdm ∧ jdm ≤ 31)
    ∧ fc.toNat + jdm.toNat ≤ 42
    ∧ g.length = 6
    ∧ (∀ i, i < 6 → (g.getD i []).length = 7)
    ∧ (∀ i j, i < 6 → j < 7 →
        cellAt g i j = if fc.toNat ≤ 7 * i + j ∧ 7 * i + j < fc.toNat + jdm.toNat
          then some (((7 * i + j - fc.toNat : Nat) + 1 : Nat) : Int) else none)
    ∧ (∀ d : Nat, 1 ≤ d → d ≤ jdm.toNat →
        cellAt g ((fc.toNat + d - 1) / 7) ((fc.toNat + d - 1) % 7) = some (d : Int)) := by
  intro jy jm sw jdm fc g hdm hfc hg
  have hfcb := month_first_col_bounds jy jm sw fc hfc
  have hdmb := dim_cases jy jm jdm hdm
  have hgeq : g = buildGrid fc.toNat jdm.toNat := by
    unfold month_grid at hg
    rw [hdm, hfc] at hg
    simp only [bind, Except.bind, pure, Except.pure, Except.ok.injEq] at hg
    exact hg.symm
  have hF : fc.toNat ≤ 6 := by omega
  have hn : fc.toNat + jdm.toNat ≤ 42 := by omega
  obtain ⟨g', hfold, hlen, hrow, hcell⟩ := fill_loop_spec fc.toNat hF jdm.toNat hn
  have hg' : g = g' := by
    rw [hgeq]
    unfold buildGrid
    rw [hfold]
  subst hg'
  refine ⟨hfcb, by omega, hn, hlen, hrow, hcell, fun d hd1 hd2 => ?_⟩
  have hp : fc.toNat + d - 1 < 42 := by omega
  have hi : (fc.toNat + d - 1) / 7 < 6 := by omega
  have hj : (fc.toNat + d - 1) % 7 < 7 := by omega
  rw [hcell _ _ hi hj, if_pos (by omega)]
  congr 1
  omega

/-- Claim C8 as stated is false (hence the amendment): for the Jalali year
100000 — whose month 1 is perfectly valid by `jalali_days_in_month` — no grid
is built at all: the first-day conversion yields Gregorian year 100621 and
the `datetime.date` constructor (jtools.py line 289) raises
`ValueError: year is out of range`, so `render_month` produces nothing. -/
theorem claim_C8_counterexample :
    jalali_days_in_month 100000 1 = .ok 31
    ∧ month_grid 100000 1 "sat" = .error "year is out of range" :=
  ⟨rfl, rfl⟩

/-- Witness for C8 on Farvardin 1400 (first column 1, 31 days): day 1 sits at
row 0, column 1. -/
theorem claim_C8_witness :
    cellAt ((month_grid 1400 1 "sat").toOption.getD []) 0 1 = some 1 := by
  have h := claim_C8 1400 1 "sat" 31 1 ((month_grid 1400 1 "sat").toOption.getD [])
    rfl rfl rfl
  have h2 := h.2.2.2.2.2.2 1 (by decide) (by decide)
  simpa using h2

/-- Helper: ASCII digit characters are not newlines. -/
theorem digit_char_ne_nl (m : Nat) (h : m < 10) : Char.ofNat (48 + m) ≠ '\n' := by
  interval_cases m <;> decide

/-- Helper: number digits contain no newline. -/
theorem natDigitsGo_ne_nl : ∀ (f n : Nat), '\n' ∉ natDigitsGo f n := by
  intro f
  induction f with
  | zero => intro n; simp [natDigitsGo]
  | succ f ih =>
    intro n
    unfold natDigitsGo
    split_ifs with h
    · intro hm
      rw [List.mem_singleton] at hm
      exact digit_char_ne_nl n h hm.symm
    · intro hm
      rcases List.mem_append.mp hm with hm | hm
      · exact ih (n / 10) hm
      · rw [List.mem_singleton] at hm
        exact digit_char_ne_nl (n % 10) (Nat.mod_lt _ (by norm_num)) hm.symm

/-- Helper: `str(int)` contains no newline. -/
theorem intRepr_ne_nl (i : Int) : '\n' ∉ intRepr i := by
  unfold intRepr natDigits
  split_ifs with h
  · intro hm
    rcases List.mem_cons.mp hm with hm | hm
    · exact absurd hm (by decide)
    · exact natDigitsGo_ne_nl _ _ hm
  · exact natDigitsGo_ne_nl _ _

/-- Helper: zero-padded numbers contain no newline. -/
theorem zeroPad_ne_nl (w : Nat) (i : Int) : '\n' ∉ zeroPad w i := by
  unfold zeroPad natDigits
  intro hm
  rcases List.mem_append.mp hm with hm | hm
  · rcases List.mem_append.mp hm with hm | hm
    · revert hm
      split_ifs <;> simp
    · exact absurd (List.eq_of_mem_replicate hm) (by decide)
  · exact natDigitsGo_ne_nl _ _ hm

/-- Helper: left padding with spaces introduces no newline. -/
theorem padLeft_ne_nl (w : Nat) (s : List Char) (hs : '\n' ∉ s) : '\n' ∉ padLeft w s := by
  unfold padLeft
  intro hm
  rcases List.mem_append.mp hm with hm | hm
  · exact absurd (List.eq_of_mem_replicate hm) (by decide)
  · exact hs hm

/-- Helper: the Farsi digit map never produces a newline from a
non-newline character. -/
theorem farsiChar_ne_nl (c : Char) (hc : c ≠ '\n') : farsiChar c ≠ '\n' := by
  unfold farsiChar
  by_cases h0 : c = '0'
  · rw [if_pos h0]; decide
  rw [if_neg h0]
  by_cases h1 : c = '1'
  · rw [if_pos h1]; decide
  rw [if_neg h1]
  by_cases h2 : c = '2'
  · rw [if_pos h2]; decide
  rw [if_neg h2]
  by_cases h3 : c = '3'
  · rw [if_pos h3]; decide
  rw [if_neg h3]
  by_cases h4 : c = '4'
  · rw [if_pos h4]; decide
  rw [if_neg h4]
  by_cases h5 : c = '5'
  · rw [if_pos h5]; decide
  rw [if_neg h5]
  by_cases h6 : c = '6'
  · rw [if_pos h6]; decide
  rw [if_neg h6]
  by_cases h7 : c = '7'
  · rw [if_pos h7]; decide
  rw [if_neg h7]
  by_cases h8 : c = '8'
  · rw [if_pos h8]; decide
  rw [if_neg h8]
  by_cases h9 : c = '9'
  · rw [if_pos h9]; decide
  rw [if_neg h9]
  exact hc

/-- Helper: Farsi digit transliteration introduces no newline. -/
theorem farsi_ne_nl (s : List Char) (hs : '\n' ∉ s) : '\n' ∉ to_farsi_digits s := by
  unfold to_farsi_digits
  intro hm
  obtain ⟨c, hc, he⟩ := List.mem_map.mp hm
  exact farsiChar_ne_nl c (fun h => hs (h ▸ hc)) he

/-- Helper: centering introduces no newline. -/
theorem pyCenter_ne_nl (w : Nat) (s : List Char) (hs : '\n' ∉ s) : '\n' ∉ pyCenter w s := by
  unfold pyCenter
  split_ifs with h
  · exact hs
  · intro hm
    rcases List.mem_append.mp hm with hm | hm
    · rcases List.mem_append.mp hm with hm | hm
      · exact absurd (List.eq_of_mem_replicate hm) (by decide)
      · exact hs hm
    · exact absurd (List.eq_of_mem_replicate hm) (by decide)

/-- Helper: table lookups contain no newline when no table entry does. -/
theorem strAt_ne_nl (xs : List String) (h : ∀ t ∈ xs, '\n' ∉ t.toList) (i : Int) :
    '\n' ∉ strAt xs i := by
  unfold strAt
  rw [List.getD_eq_getElem?_getD]
  cases hx : xs[i.toNat]? with
  | none => simp
  | some t =>
    simp only [Option.getD_some]
    exact h t (List.getElem?_mem hx)

/-- Helper: joining newline-free parts with a non-newline separator yields a
newline-free string. -/
theorem joinSep_ne_nl (c : Char) (hc : c ≠ '\n') :
    ∀ parts, (∀ p ∈ parts, '\n' ∉ p) → '\n' ∉ joinSep c parts := by
  intro parts
  induction parts with
  | nil => intro _; simp [joinSep]
  | cons x rest ih =>
    intro hp
    cases rest with
    | nil => exact hp x (List.mem_cons_self x [])
    | cons y rest' =>
      intro hm
      rw [show joinSep c (x :: y :: rest') = x ++ c :: joinSep c (y :: rest') from rfl] at hm
      rcases List.mem_append.mp hm with hm | hm
      · exact hp x (List.mem_cons_self _ _) hm
      · rcases List.mem_cons.mp hm with hm | hm
        · exact hc hm.symm
        · exact ih (fun p hp' => hp p (List.mem_cons_of_mem x hp')) hm

/-- Helper: a rendered day cell contains no newline. -/
theorem cellText_ne_nl (hl : Option Int) (col fd : Bool) (lang : String)
    (cell : Option Int) : '\n' ∉ cellText hl col fd lang cell := by
  have h1 : '\n' ∉ padLeft 2 (intRepr 0) := padLeft_ne_nl _ _ (intRepr_ne_nl 0)
  unfold cellText
  cases cell with
  | none => exact (by decide : '\n' ∉ "  ".toList)
  | some d =>
    have hpad : '\n' ∉ padLeft 2 (intRepr d) := padLeft_ne_nl _ _ (intRepr_ne_nl d)
    have hfar : '\n' ∉ to_farsi_digits (padLeft 2 (intRepr d)) := farsi_ne_nl _ hpad
    dsimp only
    cases hl with
    | none => split_ifs <;> assumption
    | some h =>
      dsimp only
      split_ifs <;> first
        | assumption
        | (intro hm
           rcases List.mem_append.mp hm with hm | hm
           · rcases List.mem_append.mp hm with hm | hm
             · rcases List.mem_append.mp hm with hm | hm
               · exact absurd hm (by decide)
               · exact absurd hm (by decide)
             · first | exact hfar hm | exact hpad hm
           · exact absurd hm (by decide))

/-- Helper: splitting a separator-free string is the identity. -/
theorem splitSep_no_sep (c : Char) : ∀ (x : List Char), c ∉ x → splitSep c x = [x] := by
  intro x
  induction x with
  | nil => intro _; rfl
  | cons a x' ih =>
    intro hx
    have ha : ¬ a = c := fun h => hx (h ▸ List.mem_cons_self a x')
    show (let r := splitSep c x';
      if a = c then [] :: r else match r with
        | [] => [[a]]
        | h :: t => (a :: h) :: t) = [a :: x']
    rw [ih (fun hm => hx (List.mem_cons_of_mem a hm))]
    rw [if_neg ha]

/-- Helper: splitting after a separator-free prefix peels it off. -/
theorem splitSep_append (c : Char) : ∀ (x s : List Char), c ∉ x →
    splitSep c (x ++ c :: s) = x :: splitSep c s := by
  intro x
  induction x with
  | nil =>
    intro s _
    show (let r := splitSep c s;
      if c = c then [] :: r else match r with
        | [] => [[c]]
        | h :: t => (c :: h) :: t) = [] :: splitSep c s
    rw [if_pos rfl]
  | cons a x' ih =>
    intro s hx
    have ha : ¬ a = c := fun h => hx (h ▸ List.mem_cons_self a x')
    show (let r := splitSep c (x' ++ c :: s);
      if a = c then [] :: r else match r with
        | [] => [[a]]
        | h :: t => (a :: h) :: t) = (a :: x') :: splitSep c s
    rw [ih s (fun hm => hx (List.mem_cons_of_mem a hm))]
    rw [if_neg ha]

/-- Helper: splitting undoes joining on separator-free parts. -/
theorem splitSep_joinSep (c : Char) : ∀ parts, parts ≠ [] → (∀ p ∈ parts, c ∉ p) →
    splitSep c (joinSep c parts) = parts := by
  intro parts
  induction parts with
  | nil => intro h; exact absurd rfl h
  | cons x rest ih =>
    intro _ hp
    cases rest with
    | nil => exact splitSep_no_sep c x (hp x (List.mem_cons_self _ _))
    | cons y rest' =>
      show splitSep c (x ++ c :: joinSep c (y :: rest')) = x :: (y :: rest')
      rw [splitSep_append c x _ (hp x (List.mem_cons_self _ _))]
      rw [ih (by simp) (fun p h' => hp p (List.mem_cons_of_mem _ h'))]

/-- Helper: the fill loop never changes the number of grid rows. -/
theorem foldl_fillStep_length : ∀ (days : List Nat)
    (st : List (List (Option Int)) × Nat × Nat),
    ((days.foldl fillStep st).1).length = st.1.length := by
  intro days
  induction days with
  | nil => intro st; rfl
  | cons d ds ih =>
    intro st
    rw [List.foldl_cons, ih (fillStep st d)]
    unfold fillStep gridPlace
    dsimp only
    split_ifs <;> simp [List.length_set]

/-- Helper: the month-name tables contain no newline. -/
theorem months_tables_ne_nl :
    (∀ t ∈ JALALI_MONTHS_EN, '\n' ∉ t.toList) ∧
    (∀ t ∈ JALALI_MONTHS_FA, '\n' ∉ t.toList) := by decide

/-- Helper: the weekday-header tables contain no newline. -/
theorem days_tables_ne_nl :
    (∀ t ∈ JALALI_DAYS_2_EN, '\n' ∉ t.toList) ∧ (∀ t ∈ JALALI_DAYS_3_EN, '\n' ∉ t.toList) ∧
    (∀ t ∈ JALALI_DAYS_2_FA, '\n' ∉ t.toList) ∧ (∀ t ∈ JALALI_DAYS_3_FA, '\n' ∉ t.toList) ∧
    (∀ t ∈ JALALI_DAYS_3_FA_LAT, '\n' ∉ t.toList) := by decide

/-- Claim C10, amended: for every Jalali year and month in 1..12 and every
option combination **such that the Gregorian counterpart of the month's first
day is constructible as a Python `datetime.date`** (see the counterexample),
the text block returned by `render_month` consists of exactly 8 lines: one
title line, one weekday-header line and six day rows — even when fewer than
six rows contain day numbers.  (The original claim quantified over *every*
Jalali year.) -/
theorem claim_C10 : ∀ (jy jm : Int) (hl : Option Int) (sj : Bool) (lang : String)
    (fd col : Bool) (sw : String) (s : List Char),
    render_month jy jm hl sj lang fd col sw = .ok s →
    (splitSep '\n' s).length = 8 := by
  intro jy jm hl sj lang fd col sw s h
  cases hdm : jalali_days_in_month jy jm with
  | error e =>
    unfold render_month at h
    rw [hdm] at h
    exact absurd h (by simp [bind, Except.bind])
  | ok jdm =>
    cases hfc : month_first_col jy jm sw with
    | error e =>
      unfold render_month at h
      rw [hdm, hfc] at h
      exact absurd h (by simp [bind, Except.bind])
    | ok fc =>
      unfold render_month at h
      rw [hdm, hfc] at h
      simp only [bind, Except.bind, pure, Except.pure, Except.ok.injEq] at h
      subst h
      rw [splitSep_joinSep '\n' _ (by simp) ?_]
      · simp only [List.length_cons, List.length_map]
        rw [show (buildGrid fc.toNat jdm.toNat).length = 6 from by
          unfold buildGrid
          rw [foldl_fillStep_length]
          rfl]
      · intro p hp
        rcases List.mem_cons.mp hp with rfl | hp
        · -- the title line
          refine pyCenter_ne_nl 20 _ ?_
          have hname : '\n' ∉ (if lang = "fa" then strAt JALALI_MONTHS_FA (jm - 1)
              else strAt JALALI_MONTHS_EN (jm - 1)) := by
            split_ifs
            · exact strAt_ne_nl _ months_tables_ne_nl.2 _
            · exact strAt_ne_nl _ months_tables_ne_nl.1 _
          generalize hM : (if lang = "fa" then strAt JALALI_MONTHS_FA (jm - 1)
              else strAt JALALI_MONTHS_EN (jm - 1)) = M at hname ⊢
          split_ifs with hfa
          · intro hm
            rcases List.mem_append.mp hm with hm | hm
            · rcases List.mem_append.mp hm with hm | hm
              · exact hname hm
              · exact absurd hm (by decide)
            · exact farsi_ne_nl _ (intRepr_ne_nl jy) hm
          · intro hm
            rcases List.mem_append.mp hm with hm | hm
            · rcases List.mem_append.mp hm with hm | hm
              · exact hname hm
              · exact absurd hm (by decide)
            · exact intRepr_ne_nl jy hm
        · rcases List.mem_cons.mp hp with rfl | hp
          · -- the weekday header line
            refine joinSep_ne_nl ' ' (by decide) _ ?_
            intro q hq
            obtain ⟨t, ht, rfl⟩ := List.mem_map.mp hq
            refine pyCenter_ne_nl 2 _ ?_
            revert ht
            split_ifs <;> intro ht
            · exact days_tables_ne_nl.2.2.2.1 t ht
            · exact days_tables_ne_nl.2.2.1 t ht
            · exact days_tables_ne_nl.2.2.2.2 t ht
            · exact days_tables_ne_nl.2.1 t ht
            · exact days_tables_ne_nl.1 t ht
          · -- a grid row
            obtain ⟨row, hrow, rfl⟩ := List.mem_map.mp hp
            refine joinSep_ne_nl ' ' (by decide) _ ?_
            intro q hq
            obtain ⟨cell, hcell, rfl⟩ := List.mem_map.mp hq
            exact cellText_ne_nl hl col fd lang cell

/-- Claim C10 as stated is false (hence the amendment): for the Jalali year
200000 — month 1 being valid by `jalali_days_in_month` — `render_month`
returns no text block at all: the `datetime.date` constructor on the
converted first day (Gregorian year 200621) raises `ValueError`. -/
theorem claim_C10_counterexample :
    render_month 200000 1 none false "en" false true "sat"
      = .error "year is out of range" := rfl

/-- Witness for C10: the rendered Farvardin 1400 block has exactly 8 lines. -/
theorem claim_C10_witness :
    (splitSep '\n'
      ((render_month 1400 1 none false "en" false true "sat").toOption.getD [])).length
      = 8 :=
  claim_C10 1400 1 none false "en" false true "sat" _ rfl

end Jtools
